import Mathlib

/-!
# Verification of the AI mockup-studio pipeline

A shallow embedding, in Lean 4, of the core of the studio application:
the prompt composer (`cloneDesign` in `services/designExtractor.ts`),
the generative-image response classifier (`generateImage`), the
background-removal client (`removeBackground`), the color analyzer
(`analyzeImageColor`), the canvas resizer (`resizeDesign`), and the
pipeline orchestrator (`handleGenerateClick` in the application
component) together with its per-stage state machine.

Strings are modelled as `List Char` (`Str`).  JavaScript truthiness of
string-or-undefined values is modelled by `optTruthy`.  The React state
store is modelled by `AppState`; one click of the generate button is
modelled by `handleGenerateRun`, which returns both the list of states
the store passes through (one entry per `set*` call, in source order)
and the final state.  A crucial point of fidelity: the constants
`clonedDesign`, `removedBgDesign`, `resizedDesign` read inside the
handler's `catch` block are the values captured by the closure at the
render in which the click happened, i.e. the state *before* the run
began — so the catch block's conditionals consult the pre-run snapshot
`s0`, not the current state.
-/

/-- Strings are modelled as lists of characters. -/
abbrev Str := List Char

/-- Convert a Lean string literal to the `Str` model. -/
def str (s : String) : Str := s.toList

/-- Lowercasing, modelling JavaScript's case-insensitive `/i` regex flag
and `toLowerCase()`. -/
def lowerStr (s : Str) : Str := s.map Char.toLower

/-- JavaScript `String.prototype.trim()`: strip whitespace from both ends. -/
def trimStr (s : Str) : Str :=
  ((s.dropWhile Char.isWhitespace).reverse.dropWhile Char.isWhitespace).reverse

/-- JavaScript truthiness of a string-or-undefined value: `undefined`
and the empty string are falsy. -/
def optTruthy : Option Str → Bool
  | none => false
  | some t => !t.isEmpty

/-! ## PromptComposer (`cloneDesign`, `services/designExtractor.ts` lines 200-220) -/

/-- The first alternative of the trailing-clause regex
`/( on a solid (black|white) background)$/i` (note the leading space). -/
def blackClause : Str := str " on a solid black background"

/-- The second alternative of the trailing-clause regex. -/
def whiteClause : Str := str " on a solid white background"

/-- Matching the regex `/( on a solid (black|white) background)$/i`
against a prompt.  Both alternatives have the same length, so a match
is exactly the last `blackClause.length` characters of the string; the
returned pair is (prompt with the match excised, the matched text in
its original casing), mirroring `replace(regex, '')` and `match[0]`. -/
def matchBgSuffix (s : Str) : Option (Str × Str) :=
  if blackClause.isSuffixOf (lowerStr s) || whiteClause.isSuffixOf (lowerStr s) then
    some (s.take (s.length - blackClause.length), s.drop (s.length - blackClause.length))
  else none

/-- The prompt-composition step of `cloneDesign`: merge the optional
`additionalInstructions` into the extracted base prompt.  Mirrors the
body of the `if (additionalInstructions && ...)` block: when the
trailing background clause is found it is excised, a period is added
only if the remaining text does not already end with one, the literal
segment `" Additional instructions: "` plus the instructions follow,
and the excised clause is re-appended; otherwise the instructions are
appended after `"\n\nAdditional instructions: "`. -/
def composeClonePrompt (extractedPrompt : Str) (additionalInstructions : Option Str) : Str :=
  match additionalInstructions with
  | none => extractedPrompt
  | some instr =>
    if (trimStr instr).length > 0 then
      match matchBgSuffix extractedPrompt with
      | some (promptWithoutBackground, backgroundInstruction) =>
        let separator : Str :=
          if promptWithoutBackground.getLast? = some '.' then [] else ['.']
        promptWithoutBackground ++ separator ++ str " Additional instructions: "
          ++ instr ++ backgroundInstruction
      | none =>
        extractedPrompt ++ str "\n\nAdditional instructions: " ++ instr
    else extractedPrompt

/-! ## Data model (`types.ts`, application component state) -/

/-- Per-stage status, the string enum `Status` with values
`'idle' | 'pending' | 'success' | 'failed'` (as switched on by
`MockupCard`). -/
inductive Status where
  | idle
  | pending
  | success
  | failed
deriving DecidableEq, Repr

/-- A single-output staged asset, the `ClonedDesign` shape
`{status, imageUrl}` used for the cloned, background-removed and
resized designs. -/
structure ClonedDesign where
  status : Status
  imageUrl : Option Str
deriving DecidableEq, Repr

/-- A per-product mockup item `{id, name, status, imageUrl}`. -/
structure Mockup where
  id : Str
  name : Str
  status : Status
  imageUrl : Option Str
deriving DecidableEq, Repr

/-- Marketing copy `{title, description, tags}` (`ProductDetails`). -/
structure ProductDetails where
  title : Str
  description : Str
  tags : Str
deriving DecidableEq, Repr

/-- The React state store of the application component: exactly the
`useState` slots the pipeline reads or writes (presentation-only slots
such as `isLoading`, `loadingMessage`, `showApiKeys`, `mode` and
`page` are omitted; `mode` only selects which instructions string is
passed down, which the run environment below already fixes). -/
structure AppState where
  uploadedImage : Option Str
  clonedDesign : ClonedDesign
  removedBgDesign : ClonedDesign
  resizedDesign : ClonedDesign
  mockups : List Mockup
  error : Option Str
  productDetails : Option ProductDetails
  selectedProducts : List Str
  geminiApiKey : Str
  photoroomApiKey : Str
deriving DecidableEq, Repr

/-- The environment of one click of the generate button: the outcome of
each awaited service call (`Except.error` models a rejected promise,
carrying the error message) and the `PRODUCTS` catalog's display names
(the catalog lives in `constants.tsx`, outside the pipeline logic). -/
structure RunEnv where
  analyzeResult : Except Str Str
  cloneResult : Except Str Str
  removeBgResult : Except Str Str
  resizeResult : Except Str Str
  mockupResult : Str → Except Str Str
  productName : Str → Str

/-! ## Orchestrator (`handleGenerateClick` in the application component) -/

/-- The mockup item created at run initialization:
`{ id, name: PRODUCTS[id].name, status: Status.PENDING, imageUrl: null }`. -/
def initItem (env : RunEnv) (id : Str) : Mockup :=
  { id := id, name := env.productName id, status := .pending, imageUrl := none }

/-- The terminal mockup item for a product after its own generation
call settles: `Success` with its image payload on resolution, `Failed`
(payload untouched, i.e. still absent) on rejection. -/
def finalItem (env : RunEnv) (id : Str) : Mockup :=
  match env.mockupResult id with
  | .ok url => { id := id, name := env.productName id, status := .success, imageUrl := some url }
  | .error _ => { id := id, name := env.productName id, status := .failed, imageUrl := none }

/-- The element-level update one settled mockup call applies inside
`setMockups(prev => prev.map(m => m.id === productId ? ... : m))`:
touch only the item with the matching id. -/
def gElem (env : RunEnv) (productId : Str) (m : Mockup) : Mockup :=
  if m.id = productId then
    match env.mockupResult productId with
    | .ok url => { m with status := .success, imageUrl := some url }
    | .error _ => { m with status := .failed }
  else m

/-- The state update performed when product `productId`'s mockup call
settles: map `gElem` over the current mockup collection. -/
def mockupStep (env : RunEnv) (s : AppState) (productId : Str) : AppState :=
  { s with mockups := s.mockups.map (gElem env productId) }

/-- The states the store passes through while the `Promise.all` fan-out
settles, one per settled call (the calls are concurrent; each functional
update touches only its own product's slot, so every settlement order
yields the same set of updates — this trace fixes one order). -/
def mockupFanoutTrace (env : RunEnv) (s : AppState) : List Str → List AppState
  | [] => []
  | p :: rest =>
    let s1 := mockupStep env s p
    s1 :: mockupFanoutTrace env s1 rest

/-- The state after the whole mockup fan-out has settled. -/
def mockupFanout (env : RunEnv) (s : AppState) (sel : List Str) : AppState :=
  sel.foldl (mockupStep env) s

/-- Run initialization (source order of the `set*` calls at the top of
`handleGenerateClick`): clear the error and the product details, set
the cloned design to `Pending`, reset the background-removed and the
resized designs to `Idle`, and replace the mockup collection with one
`Pending` item per selected product (empty if none selected).  Returns
the store states after each call, and the resulting state. -/
def runInit (env : RunEnv) (s0 : AppState) : List AppState × AppState :=
  let sA := { s0 with error := none }
  let sB := { sA with productDetails := none }
  let sC := { sB with clonedDesign := ⟨.pending, none⟩ }
  let sD := { sC with removedBgDesign := ⟨.idle, none⟩ }
  let sE := { sD with resizedDesign := ⟨.idle, none⟩ }
  let sF := { sE with mockups :=
    if s0.selectedProducts.isEmpty then []
    else s0.selectedProducts.map (initItem env) }
  ([sA, sB, sC, sD, sE, sF], sF)

/-- The `try` block: analysis, clone, background removal, resize, then
the mockup fan-out, each stage updating the store as in the source.
Returns the intermediate store states, the state reached when the block
exits, and the thrown error if a critical-path await rejected. -/
def runBody (env : RunEnv) (sel : List Str) (s1 : AppState) :
    List AppState × AppState × Option Str :=
  match env.analyzeResult with
  | .error e => ([], s1, some e)
  | .ok _dominantColor =>
    match env.cloneResult with
    | .error e => ([], s1, some e)
    | .ok clonedImageUrl =>
      let sA := { s1 with clonedDesign := ⟨.success, some clonedImageUrl⟩ }
      let sB := { sA with removedBgDesign := ⟨.pending, none⟩ }
      match env.removeBgResult with
      | .error e => ([sA, sB], sB, some e)
      | .ok transparentImageUrl =>
        let sC := { sB with removedBgDesign := ⟨.success, some transparentImageUrl⟩ }
        let sD := { sC with resizedDesign := ⟨.pending, none⟩ }
        match env.resizeResult with
        | .error e => ([sA, sB, sC, sD], sD, some e)
        | .ok resizedImageUrl =>
          let sE := { sD with resizedDesign := ⟨.success, some resizedImageUrl⟩ }
          if sel.isEmpty then ([sA, sB, sC, sD, sE], sE, none)
          else ([sA, sB, sC, sD, sE] ++ mockupFanoutTrace env sE sel,
                mockupFanout env sE sel, none)

/-- The `catch` block.  Fidelity note: the handler is an async closure
created at the render in which the click happened, so the local
constants `clonedDesign`, `removedBgDesign`, `resizedDesign` it reads
here are the values from *before* the run (`s0`), not the current store
values; the `setMockups` call, by contrast, uses a functional update
and therefore sees the current collection. -/
def runCatch (sel : List Str) (s0 sCur : AppState) (e : Str) :
    List AppState × AppState :=
  let sErr := { sCur with error := some e }
  let s1 := if s0.clonedDesign.status = .pending then
      { sErr with clonedDesign := ⟨.failed, none⟩ } else sErr
  let s2 := if s0.removedBgDesign.status ≠ .success then
      { s1 with removedBgDesign := ⟨.failed, none⟩ } else s1
  let s3 := if s0.resizedDesign.status ≠ .success then
      { s2 with resizedDesign := ⟨.failed, none⟩ } else s2
  let s4 := if sel.isEmpty then s3
    else { s3 with mockups := s3.mockups.map (fun m =>
      if m.status = .pending then { m with status := .failed } else m) }
  ([sErr, s1, s2, s3, s4], s4)

/-- One click of the generate button: the guard clauses, the
initialization, the `try` body and, on a critical-path rejection, the
`catch` block.  Returns the list of store states in update order and
the final state. -/
def handleGenerateRun (env : RunEnv) (s0 : AppState) : List AppState × AppState :=
  if s0.geminiApiKey.isEmpty then
    let s := { s0 with error := some (str "Please enter your Gemini API key to start.") }
    ([s], s)
  else
    match s0.uploadedImage with
    | none =>
      let s := { s0 with error := some (str "Please upload a design image to start!") }
      ([s], s)
    | some _ =>
      let sel := s0.selectedProducts
      let (initTr, s1) := runInit env s0
      match runBody env sel s1 with
      | (bodyTr, sEnd, none) => (initTr ++ bodyTr, sEnd)
      | (bodyTr, sCur, some e) =>
        let (catchTr, sEnd) := runCatch sel s0 sCur e
        (initTr ++ bodyTr ++ catchTr, sEnd)

/-- The successive store states of one run. -/
def runStates (env : RunEnv) (s0 : AppState) : List AppState :=
  (handleGenerateRun env s0).1

/-- The final store state of one run. -/
def handleGenerateClick (env : RunEnv) (s0 : AppState) : AppState :=
  (handleGenerateRun env s0).2

/-- `processImageFile`: accept an image file, decode it to a data URL
(`toBase64` may reject), store it and reset all per-run state; surface
an error for a non-image file or a failed decode. -/
def processImageFile (isImageFile : Bool) (decoded : Except Str Str)
    (s : AppState) : AppState :=
  if isImageFile then
    match decoded with
    | .ok base64Image =>
      { s with uploadedImage := some base64Image,
               clonedDesign := ⟨.idle, none⟩,
               removedBgDesign := ⟨.idle, none⟩,
               resizedDesign := ⟨.idle, none⟩,
               mockups := [],
               error := none,
               productDetails := none }
    | .error _ =>
      { s with error := some (str "Couldn't process this image. Please try another file.") }
  else
    { s with error := some (str "Please paste or upload a valid image file.") }

/-! ## GenerativeImageClient (`generateImage`, `services/designExtractor.ts` lines 137-197) -/

/-- One safety rating `{category, probability}`. -/
structure SafetyRating where
  category : Str
  probability : Str
deriving DecidableEq, Repr

/-- `promptFeedback`: optional block reason, optional block-reason
message, optional list of safety ratings. -/
structure PromptFeedback where
  blockReason : Option Str
  blockReasonMessage : Option Str
  safetyRatings : Option (List SafetyRating)
deriving DecidableEq, Repr

/-- One content part; `inlineData` carries the base64 image data when
present. -/
structure ContentPart where
  inlineData : Option Str
  text : Option Str
deriving DecidableEq, Repr

/-- A candidate's content. -/
structure Content where
  parts : List ContentPart
deriving DecidableEq, Repr

/-- One response candidate. -/
structure Candidate where
  content : Option Content
deriving DecidableEq, Repr

/-- The shape of a `generateContent` response as read by
`generateImage`: optional prompt feedback, the candidate list, and the
SDK-aggregated `text` accessor. -/
structure GenResponse where
  promptFeedback : Option PromptFeedback
  candidates : List Candidate
  text : Option Str
deriving DecidableEq, Repr

/-- The failure taxonomy of `generateImage`; each constructor carries
the thrown message. -/
inductive GenError where
  | blockedContent (message : Str)
  | filteredContent (message : Str)
  | apiTextFailure (message : Str)
  | emptyResponse (message : Str)
  | textInsteadOfImage (message : Str)
  | noImageReturned (message : Str)
deriving DecidableEq, Repr

/-- The classification kind of a `generateImage` outcome. -/
inductive GenClass where
  | success
  | blocked
  | filtered
  | apiTextFail
  | empty
  | textOnly
  | noImage
deriving DecidableEq, Repr

/-- Kind of a `generateImage` outcome. -/
def classOf : Except GenError Str → GenClass
  | .ok _ => .success
  | .error (.blockedContent _) => .blocked
  | .error (.filteredContent _) => .filtered
  | .error (.apiTextFailure _) => .apiTextFail
  | .error (.emptyResponse _) => .empty
  | .error (.textInsteadOfImage _) => .textOnly
  | .error (.noImageReturned _) => .noImage

/-- JavaScript `String.prototype.replace(sub, repl)` with a plain
string pattern: replace the first occurrence only. -/
def replaceFirst : Str → Str → Str → Str
  | [], _, _ => []
  | c :: rest, pat, repl =>
    if pat.isPrefixOf (c :: rest) then repl ++ (c :: rest).drop pat.length
    else c :: replaceFirst rest pat repl

/-- The category prettification in the filtered-content branch:
`category.replace('HARM_CATEGORY_', '').replace(/_/g, ' ').toLowerCase()`. -/
def prettyCategory (category : Str) : Str :=
  lowerStr ((replaceFirst category (str "HARM_CATEGORY_") []).map
    (fun c => if c = '_' then ' ' else c))

/-- `response.promptFeedback?.blockReason`. -/
def blockReasonOf (r : GenResponse) : Option Str :=
  r.promptFeedback.bind (·.blockReason)

/-- `response.promptFeedback?.safetyRatings` searched for a rating with
HIGH or MEDIUM probability (an empty ratings array is still truthy, so
only absence skips the scan). -/
def harmfulRatingOf (r : GenResponse) : Option SafetyRating :=
  match r.promptFeedback.bind (·.safetyRatings) with
  | none => none
  | some ratings =>
    ratings.find? (fun rating =>
      rating.probability = str "HIGH" || rating.probability = str "MEDIUM")

/-- `response.candidates?.[0]?.content?.parts`. -/
def partsOf (r : GenResponse) : Option (List ContentPart) :=
  (r.candidates.head?.bind (·.content)).map (·.parts)

/-- The first part carrying image data, and its data:
`parts.find(part => part.inlineData)` followed by the
`imagePart?.inlineData` read. -/
def firstImageData (r : GenResponse) : Option Str :=
  ((partsOf r).getD []).find? (·.inlineData.isSome) |>.bind (·.inlineData)

/-- The response classifier of `generateImage`, check for check in
source order: explicit block reason, then the safety-rating scan, then
the empty-content check (with its text-bearing sub-case), then the
image-part search (success), then the text-part fallback. -/
def generateImage (response : GenResponse) : Except GenError Str :=
  match blockReasonOf response with
  | some blockReason =>
    if optTruthy (some blockReason) then
      let base := str "Image generation failed due to: " ++ blockReason ++ str "."
      let msg := match response.promptFeedback.bind (·.blockReasonMessage) with
        | some m => if optTruthy (some m) then base ++ str " Message: " ++ m else base
        | none => base
      .error (.blockedContent msg)
    else generateImageAfterBlock response
  | none => generateImageAfterBlock response
where
  /-- The checks after the block-reason check. -/
  generateImageAfterBlock (response : GenResponse) : Except GenError Str :=
    match harmfulRatingOf response with
    | some harmfulRating =>
      .error (.filteredContent (str "Image generation failed. The request was filtered due to potential "
        ++ prettyCategory harmfulRating.category ++ str " content."))
    | none =>
      match partsOf response with
      | none => generateImageEmpty response
      | some parts =>
        if parts.isEmpty then generateImageEmpty response
        else
          match parts.find? (·.inlineData.isSome) with
          | some imagePart =>
            match imagePart.inlineData with
            | some data => .ok (str "data:image/png;base64," ++ data)
            | none => generateImageTextFallback response parts
          | none => generateImageTextFallback response parts
  /-- The empty-content branch: surface `response.text` when truthy. -/
  generateImageEmpty (response : GenResponse) : Except GenError Str :=
    let responseText := response.text.map trimStr
    if optTruthy responseText then
      .error (.apiTextFailure (str "API call failed: " ++ responseText.getD []))
    else
      .error (.emptyResponse (str "API returned an empty response. This could be due to safety filters or an unclear prompt. Please try modifying your instructions or using a different image."))
  /-- The no-image fallback: surface the first truthy text part, else
  `response.text`, else the generic no-image message. -/
  generateImageTextFallback (response : GenResponse) (parts : List ContentPart) : Except GenError Str :=
    let textPart := parts.find? (fun part => optTruthy part.text)
    let textResponse : Option Str :=
      if optTruthy (textPart.bind (·.text)) then textPart.bind (·.text) else response.text
    match textResponse with
    | some t =>
      if !(trimStr t).isEmpty then
        .error (.textInsteadOfImage (str "API returned text instead of an image: \x22" ++ trimStr t ++ str "\x22"))
      else .error (.noImageReturned (str "API did not return an image. Please try a different design or prompt."))
    | none => .error (.noImageReturned (str "API did not return an image. Please try a different design or prompt."))

/-! ## BackgroundRemovalClient (`removeBackground`, `services/designExtractor.ts` lines 277-306) -/

/-- A fetch response as read by `removeBackground`: the `ok` flag, the
HTTP status, the error body text and the result blob. -/
structure HttpResponse where
  ok : Bool
  status : Nat
  body : Str
  blobData : Str
deriving DecidableEq, Repr

/-- The failure taxonomy of `removeBackground`; each constructor
carries the thrown message. -/
inductive RbError where
  | missingCredential (message : Str)
  | backendError (status : Nat) (message : Str)
  | networkFailure
deriving DecidableEq, Repr

/-- `FileReader.readAsDataURL` applied to the result blob. -/
def toDataURL (blobData : Str) : Str :=
  str "data:image/png;base64," ++ blobData

/-- `removeBackground`: throw if the credential is empty; otherwise
issue one `fetch` (consuming the first of the available backend
responses — there is no retry loop, so the rest are never consumed);
on a non-ok status, log the raw error body to the console and throw a
message naming only the status; on success, convert the blob back to a
data URL.  Returns the outcome together with the console log. -/
def removeBackground (apiKey : Str) (responses : List HttpResponse) :
    Except RbError Str × List Str :=
  if apiKey.isEmpty then
    (.error (.missingCredential (str "Photoroom API key is missing.")), [])
  else
    match responses with
    | [] => (.error .networkFailure, [])
    | response :: _ =>
      if response.ok then
        (.ok (toDataURL response.blobData), [])
      else
        (.error (.backendError response.status
            (str "Background removal failed. Status: " ++ str (toString response.status))),
         [str "Photoroom API Error: " ++ response.body])

/-! ## Color analyzer (`analyzeImageColor`, `services/designExtractor.ts` lines 125-135) -/

/-- A hexadecimal digit as accepted by `/^#[0-9A-F]{6}$/i`. -/
def isHexDigit (c : Char) : Bool :=
  ('0' ≤ c && c ≤ '9') || ('A' ≤ c && c ≤ 'F') || ('a' ≤ c && c ≤ 'f')

/-- The anchored test `/^#[0-9A-F]{6}$/i`: a `#` followed by exactly
six hex digits, nothing else. -/
def isHexColor : Str → Bool
  | '#' :: rest => rest.length = 6 && rest.all isHexDigit
  | _ => false

/-- `analyzeImageColor`: throw if the credential is empty; propagate a
rejected API call; otherwise trim the response text and return it when
it passes the hex-color test, else the default `'#F3F4F6'`. -/
def analyzeImageColor (apiKey : Str) (callResult : Except Str Str) : Except Str Str :=
  if apiKey.isEmpty then .error (str "Gemini API key is missing.")
  else
    match callResult with
    | .error e => .error e
    | .ok text =>
      let color := trimStr text
      .ok (if isHexColor color then color else str "#F3F4F6")

/-! ## ImageCodec resize (`resizeDesign`, `services/designExtractor.ts` lines 313-353) -/

/-- `ctx.imageSmoothingQuality` values. -/
inductive SmoothingQuality where
  | low
  | medium
  | high
deriving DecidableEq, Repr

/-- The canvas drawing commands `resizeDesign` issues, with rational
coordinates (JavaScript numbers; all quantities involved are exact). -/
inductive CanvasOp where
  | clearRect (x y w h : ℚ)
  | drawImage (x y w h : ℚ)
deriving DecidableEq, Repr

/-- The canvas produced by `resizeDesign`: its pixel dimensions, the
configured smoothing quality and the command list in issue order. -/
structure ResizeCanvas where
  width : Nat
  height : Nat
  smoothingQuality : SmoothingQuality
  ops : List CanvasOp
deriving DecidableEq, Repr

/-- Membership of a point in an axis-aligned rectangle. -/
def inRect (x y w h p q : ℚ) : Bool :=
  decide (x ≤ p) && decide (p < x + w) && decide (y ≤ q) && decide (q < y + h)

/-- Whether a pixel position carries paint after the command list runs:
`clearRect` makes its rectangle transparent, `drawImage` paints (at
most) its destination rectangle; a fresh canvas is transparent. -/
def paintedAfter (ops : List CanvasOp) (p q : ℚ) : Bool :=
  ops.foldl (fun acc op =>
    match op with
    | .clearRect x y w h => if inRect x y w h p q then false else acc
    | .drawImage x y w h => if inRect x y w h p q then true else acc) false

/-- `resizeDesign`: reject with a decode error when the source payload
does not decode (`img.onerror`); reject when no 2d context is available;
otherwise produce a 4500×5400 canvas, set the smoothing quality to
high, compute the uniform scale `min(4500/w, 5400/h)`, and issue a full
clear followed by one centered draw of the scaled image. -/
def resizeDesign (decoded : Option (Nat × Nat)) (ctxAvailable : Bool) :
    Except Str ResizeCanvas :=
  match decoded with
  | none => .error (str "Failed to load image for resizing.")
  | some (w, h) =>
    if ctxAvailable then
      let targetWidth : ℚ := 4500
      let targetHeight : ℚ := 5400
      let hRatio : ℚ := targetWidth / w
      let vRatio : ℚ := targetHeight / h
      let ratio : ℚ := min hRatio vRatio
      let newWidth : ℚ := w * ratio
      let newHeight : ℚ := h * ratio
      let xOffset : ℚ := (targetWidth - newWidth) / 2
      let yOffset : ℚ := (targetHeight - newHeight) / 2
      .ok { width := 4500, height := 5400, smoothingQuality := .high,
            ops := [.clearRect 0 0 targetWidth targetHeight,
                    .drawImage xOffset yOffset newWidth newHeight] }
    else .error (str "Could not get canvas context for resizing.")

/-! ## Derived predicates -/

/-- The payload invariant for a staged asset: `imageUrl` is present iff
the status is `Success`. -/
def assetInv (a : ClonedDesign) : Bool :=
  a.imageUrl.isSome == decide (a.status = Status.success)

/-- The payload invariant for a mockup item. -/
def itemInv (m : Mockup) : Bool :=
  m.imageUrl.isSome == decide (m.status = Status.success)

/-- The payload invariant over the whole store. -/
def stateInv (s : AppState) : Bool :=
  assetInv s.clonedDesign && assetInv s.removedBgDesign &&
  assetInv s.resizedDesign && s.mockups.all itemInv

/-- A mockup item is in one of its two reachable shapes during the
fan-out: untouched (`initItem`) or settled (`finalItem`). -/
def goodItem (env : RunEnv) (m : Mockup) : Prop :=
  m = initItem env m.id ∨ m = finalItem env m.id

/-- The response carries a truthy block reason. -/
def hasBlockReason (r : GenResponse) : Bool :=
  optTruthy (blockReasonOf r)

/-- The response carries at least one part with image data. -/
def hasImagePart (r : GenResponse) : Bool :=
  (firstImageData r).isSome

/-! ## Concrete fixtures -/

/-- A fresh store right after an image upload: all stages `Idle`, two
products selected, both keys present. -/
def freshState : AppState :=
  { uploadedImage := some (str "img"),
    clonedDesign := ⟨.idle, none⟩,
    removedBgDesign := ⟨.idle, none⟩,
    resizedDesign := ⟨.idle, none⟩,
    mockups := [], error := none, productDetails := none,
    selectedProducts := [str "tshirt", str "mug"],
    geminiApiKey := str "k", photoroomApiKey := str "p" }

/-- A run in which analysis, cloning and background removal succeed and
the resize call rejects. -/
def envResizeFails : RunEnv :=
  { analyzeResult := .ok (str "#000000"),
    cloneResult := .ok (str "c"),
    removeBgResult := .ok (str "b"),
    resizeResult := .error (str "resize failed"),
    mockupResult := fun _ => .ok (str "m"),
    productName := fun _ => str "P" }

/-- A run in which analysis succeeds and the clone call rejects. -/
def envCloneFails : RunEnv :=
  { envResizeFails with
    cloneResult := .error (str "clone failed"),
    resizeResult := .ok (str "r") }

/-- A fully successful critical path where, among four selected
products, exactly product `C`'s mockup call rejects. -/
def envOneMockupFails : RunEnv :=
  { envResizeFails with
    resizeResult := .ok (str "r"),
    mockupResult := fun id =>
      if id = str "C" then .error (str "boom") else .ok (str "m-" ++ id) }

/-- The fresh store with products `A`, `B`, `C`, `D` selected. -/
def fourProductState : AppState :=
  { freshState with selectedProducts := [str "A", str "B", str "C", str "D"] }

/-- A response that carries both an explicit block reason and an image
part. -/
def respBlockedWithImage : GenResponse :=
  { promptFeedback := some ⟨some (str "SAFETY"), none, none⟩,
    candidates := [⟨some ⟨[⟨some (str "IMGDATA"), none⟩]⟩⟩],
    text := none }

/-! ## Helper lemmas: mockup fan-out -/

/-- `gElem` never changes an item's id. -/
theorem gElem_id (env : RunEnv) (p : Str) (m : Mockup) :
    (gElem env p m).id = m.id := by
  unfold gElem
  by_cases h : m.id = p
  · simp only [h, if_pos rfl]
    cases env.mockupResult p <;> simp [h]
  · simp [h]

/-- Settling product `p` maps an untouched item either to its settled
shape (if it is `p`'s) or leaves it untouched. -/
theorem gElem_initItem (env : RunEnv) (p id : Str) :
    gElem env p (initItem env id) =
      if id = p then finalItem env id else initItem env id := by
  unfold gElem initItem finalItem
  by_cases h : id = p
  · subst h
    cases hm : env.mockupResult id <;> simp [hm]
  · simp [h]

/-- Settling product `p` leaves an already settled item unchanged. -/
theorem gElem_finalItem (env : RunEnv) (p id : Str) :
    gElem env p (finalItem env id) = finalItem env id := by
  unfold gElem finalItem
  by_cases h : id = p
  · subst h
    cases hm : env.mockupResult id <;> simp [hm]
  · cases hm : env.mockupResult id <;> simp [h, hm]

/-- `gElem` preserves the two-shape property. -/
theorem goodItem_gElem (env : RunEnv) (p : Str) (m : Mockup)
    (h : goodItem env m) : goodItem env (gElem env p m) := by
  rcases h with h | h
  · rw [h, gElem_initItem]
    by_cases hid : m.id = p
    · rw [if_pos hid]
      right
      have : (finalItem env m.id).id = m.id := by
        unfold finalItem; cases env.mockupResult m.id <;> rfl
      rw [this]
    · rw [if_neg hid]
      left
      have : (initItem env m.id).id = m.id := rfl
      rw [this]
  · rw [h, gElem_finalItem]
    right
    have : (finalItem env m.id).id = m.id := by
      unfold finalItem; cases env.mockupResult m.id <;> rfl
    rw [this]

/-- Both reachable shapes satisfy the payload invariant. -/
theorem itemInv_of_goodItem (env : RunEnv) (m : Mockup)
    (h : goodItem env m) : itemInv m = true := by
  rcases h with h | h
  · rw [h]; rfl
  · rw [h]
    unfold finalItem
    cases env.mockupResult m.id <;> rfl

/-- Every state in the fan-out trace agrees with the starting state on
everything but the mockup collection, and keeps every item in one of
its two reachable shapes. -/
theorem mockupFanoutTrace_spec (env : RunEnv) :
    ∀ (sel : List Str) (s : AppState),
      (∀ m ∈ s.mockups, goodItem env m) →
      ∀ t ∈ mockupFanoutTrace env s sel,
        t.clonedDesign = s.clonedDesign ∧
        t.removedBgDesign = s.removedBgDesign ∧
        t.resizedDesign = s.resizedDesign ∧
        t.error = s.error ∧
        ∀ m ∈ t.mockups, goodItem env m := by
  intro sel
  induction sel with
  | nil => intro s _ t ht; simp [mockupFanoutTrace] at ht
  | cons p rest ih =>
    intro s hg t ht
    have hstep : ∀ m ∈ (mockupStep env s p).mockups, goodItem env m := by
      intro m hm
      simp only [mockupStep, List.mem_map] at hm
      obtain ⟨m₀, hm₀, rfl⟩ := hm
      exact goodItem_gElem env p m₀ (hg m₀ hm₀)
    simp only [mockupFanoutTrace, List.mem_cons] at ht
    rcases ht with rfl | ht
    · exact ⟨rfl, rfl, rfl, rfl, hstep⟩
    · obtain ⟨h1, h2, h3, h4, h5⟩ := ih (mockupStep env s p) hstep t ht
      exact ⟨h1, h2, h3, h4, h5⟩

/-- The fan-out only rewrites the mockup collection, by folding the
per-product element update over it. -/
theorem mockupFanout_fields (env : RunEnv) :
    ∀ (sel : List Str) (s : AppState),
      (mockupFanout env s sel).mockups =
        sel.foldl (fun l p => l.map (gElem env p)) s.mockups ∧
      (mockupFanout env s sel).clonedDesign = s.clonedDesign ∧
      (mockupFanout env s sel).removedBgDesign = s.removedBgDesign ∧
      (mockupFanout env s sel).resizedDesign = s.resizedDesign ∧
      (mockupFanout env s sel).error = s.error := by
  intro sel
  induction sel with
  | nil => intro s; exact ⟨rfl, rfl, rfl, rfl, rfl⟩
  | cons p rest ih =>
    intro s
    have h := ih (mockupStep env s p)
    simpa [mockupFanout, mockupStep, List.foldl_cons] using h

/-- Folding list-level maps equals mapping the element-level fold. -/
theorem foldl_map_swap (env : RunEnv) :
    ∀ (sel : List Str) (ms : List Mockup),
      sel.foldl (fun l p => l.map (gElem env p)) ms =
        ms.map (fun m => sel.foldl (fun x p => gElem env p x) m) := by
  intro sel
  induction sel with
  | nil => intro ms; simp
  | cons p rest ih =>
    intro ms
    simp only [List.foldl_cons]
    rw [ih (ms.map (gElem env p)), List.map_map]
    rfl

/-- Once settled, an item stays settled for the rest of the fold. -/
theorem elemFold_finalItem (env : RunEnv) (id : Str) :
    ∀ sel : List Str,
      sel.foldl (fun x p => gElem env p x) (finalItem env id) = finalItem env id := by
  intro sel
  induction sel with
  | nil => rfl
  | cons p rest ih =>
    have hid : (finalItem env id).id = id := by
      unfold finalItem; cases env.mockupResult id <;> rfl
    simp only [List.foldl_cons]
    rw [show gElem env p (finalItem env id) = finalItem env id from by
      have := gElem_finalItem env p id
      exact this]
    exact ih

/-- An item whose product is in the processed list ends settled. -/
theorem elemFold_of_mem (env : RunEnv) (id : Str) :
    ∀ sel : List Str, id ∈ sel →
      sel.foldl (fun x p => gElem env p x) (initItem env id) = finalItem env id := by
  intro sel
  induction sel with
  | nil => intro h; cases h
  | cons p rest ih =>
    intro h
    simp only [List.foldl_cons]
    rw [show gElem env p (initItem env id) =
          if id = p then finalItem env id else initItem env id from
        gElem_initItem env p id]
    by_cases hp : id = p
    · rw [if_pos hp]; exact elemFold_finalItem env id rest
    · rw [if_neg hp]
      have : id ∈ rest := by
        rcases List.mem_cons.mp h with h' | h'
        · exact absurd h' hp
        · exact h'
      exact ih this

/-! ## Claim theorems -/

/-- C1: in a run from a fresh store in which analysis, cloning and
background removal succeed and resize then rejects, the
background-removed asset reaches `Success` with payload `"b"` during
the run, yet the final state has it `Failed` with its payload erased:
the catch block's conditional reads the pre-click snapshot (where the
status was `Idle`, not `Success`) and therefore overwrites the
success.  This exhibits the code's divergence from the claim that the
background-removed asset's `Success` and `imageUrl` survive a resize
failure. -/
theorem resize_failure_clobbers_removedBg :
    (∃ t ∈ runStates envResizeFails freshState,
       t.removedBgDesign = ⟨Status.success, some (str "b")⟩) ∧
    (handleGenerateClick envResizeFails freshState).removedBgDesign =
      ⟨Status.failed, none⟩ := by
  decide

/-- C2: in a run from a fresh store in which the clone stage rejects,
the cloned asset ends the run still `Pending` — a non-terminal status —
because the catch block's conditional reads the pre-click snapshot
(where the status was `Idle`, not `Pending`) and therefore never marks
it `Failed`.  This exhibits the code's divergence from the claim that
every single-output asset reaches a terminal status. -/
theorem clone_failure_leaves_cloned_pending :
    (handleGenerateClick envCloneFails freshState).clonedDesign.status =
      Status.pending ∧
    Status.pending ≠ Status.success ∧ Status.pending ≠ Status.failed := by
  decide

/-- C8 counterexample: right after run initialization (before any stage
executes) the background-removed asset's status is `Idle`, not
`Pending`, in a concrete run. -/
theorem runInit_removedBg_not_pending :
    ((runInit envResizeFails freshState).2).removedBgDesign.status ≠
      Status.pending := by
  decide

/-- C8 (amended): at the start of every run the orchestrator sets the
cloned asset to `Pending`, resets the background-removed and resized
assets to `Idle`, clears the error, and replaces the mockup collection
with one `Pending` item per selected product (empty if none selected);
and when the guards pass, the run's state trace begins with exactly
these initialization states. -/
theorem runInit_spec (env : RunEnv) (s0 : AppState) (im : Str)
    (hk : s0.geminiApiKey.isEmpty = false)
    (him : s0.uploadedImage = some im) :
    ((runInit env s0).2).clonedDesign = ⟨Status.pending, none⟩ ∧
    ((runInit env s0).2).removedBgDesign = ⟨Status.idle, none⟩ ∧
    ((runInit env s0).2).resizedDesign = ⟨Status.idle, none⟩ ∧
    ((runInit env s0).2).error = none ∧
    ((runInit env s0).2).mockups =
      (if s0.selectedProducts.isEmpty then []
       else s0.selectedProducts.map (initItem env)) ∧
    ∃ rest, runStates env s0 = (runInit env s0).1 ++ rest := by
  refine ⟨rfl, rfl, rfl, rfl, rfl, ?_⟩
  unfold runStates handleGenerateRun
  rw [hk, him]
  simp only [Bool.false_eq_true, if_false]
  rcases hbody : runBody env s0.selectedProducts (runInit env s0).2 with ⟨tr, sEnd, err⟩
  cases err with
  | none => exact ⟨tr, by simp [runInit, hbody]⟩
  | some e =>
    exact ⟨tr ++ (runCatch s0.selectedProducts s0 sEnd e).1,
      by simp [runInit, hbody]⟩

/-- C8 witness: the amended initialization facts at a concrete run. -/
theorem runInit_spec_witness :
    ((runInit envResizeFails freshState).2).clonedDesign =
      ⟨Status.pending, none⟩ ∧
    ((runInit envResizeFails freshState).2).removedBgDesign =
      ⟨Status.idle, none⟩ := by
  have h := runInit_spec envResizeFails freshState (str "img")
    (by decide) (by decide)
  exact ⟨h.1, h.2.1⟩

/-- C7 counterexample: for a concrete non-success backend response with
error body `"quota exceeded"`, the thrown message names only the HTTP
status and does not include the raw error body, contradicting the
claim that the surfaced message includes the body. -/
theorem removeBackground_message_omits_body :
    (removeBackground (str "k")
        [⟨false, 402, str "quota exceeded", str ""⟩]).1 =
      .error (.backendError 402 (str "Background removal failed. Status: 402")) ∧
    ¬ (str "quota exceeded") <:+:
        (str "Background removal failed. Status: 402") :=
  ⟨rfl, by decide⟩

/-- C7 (amended): `removeBackground` fails with `MissingCredential`
when the credential is empty; on a non-success status it fails with a
`BackendError` carrying the HTTP status, whose message names the
status, while the raw error body is written to the console log rather
than into the message; and the call is a single attempt — its outcome
depends only on the first backend response, with no retry consuming a
later one. -/
theorem removeBackground_spec (apiKey : Str) (r : HttpResponse)
    (rest : List HttpResponse) :
    (apiKey = [] → ∀ rs, removeBackground apiKey rs =
      (.error (.missingCredential (str "Photoroom API key is missing.")), [])) ∧
    (apiKey ≠ [] → r.ok = false →
      (removeBackground apiKey (r :: rest)).1 =
        .error (.backendError r.status
          (str "Background removal failed. Status: " ++ str (toString r.status))) ∧
      (str "Photoroom API Error: " ++ r.body) ∈
        (removeBackground apiKey (r :: rest)).2) ∧
    removeBackground apiKey (r :: rest) = removeBackground apiKey [r] := by
  refine ⟨?_, ?_, ?_⟩
  · intro h rs
    subst h
    simp [removeBackground]
  · intro hne hok
    have hk : apiKey.isEmpty = false := by
      cases apiKey with
      | nil => exact absurd rfl hne
      | cons c cs => rfl
    constructor
    · simp [removeBackground, hk, hok]
    · simp [removeBackground, hk, hok]
  · cases hk : apiKey.isEmpty <;> simp [removeBackground, hk]

/-- C7 witness: the amended behavior at concrete inputs. -/
theorem removeBackground_spec_witness :
    removeBackground [] [⟨true, 200, str "", str "blob"⟩] =
      (.error (.missingCredential (str "Photoroom API key is missing.")), []) ∧
    (removeBackground (str "k")
        [⟨false, 402, str "quota exceeded", str ""⟩,
         ⟨true, 200, str "", str "blob"⟩]).1 =
      .error (.backendError 402
        (str "Background removal failed. Status: " ++ str (toString 402))) := by
  have h1 := (removeBackground_spec [] ⟨true, 200, str "", str "blob"⟩ []).1
    rfl [⟨true, 200, str "", str "blob"⟩]
  have h2 := ((removeBackground_spec (str "k")
      ⟨false, 402, str "quota exceeded", str ""⟩
      [⟨true, 200, str "", str "blob"⟩]).2.1 (by decide) rfl).1
  exact ⟨h1, h2⟩

/-- C10: the color-analysis step never fails because of malformed model
output: with a non-empty credential, a response whose trimmed text
passes the anchored case-insensitive hex test is returned as-is, any
other response text yields the default `'#F3F4F6'`, a rejected API
call is propagated unchanged, and an empty credential is the only
other failure. -/
theorem analyzeImageColor_spec (apiKey t e : Str) (hk : apiKey ≠ []) :
    (isHexColor (trimStr t) = true →
      analyzeImageColor apiKey (.ok t) = .ok (trimStr t)) ∧
    (isHexColor (trimStr t) = false →
      analyzeImageColor apiKey (.ok t) = .ok (str "#F3F4F6")) ∧
    analyzeImageColor apiKey (.error e) = .error e ∧
    (∀ r, analyzeImageColor [] r = .error (str "Gemini API key is missing.")) := by
  have hke : apiKey.isEmpty = false := by
    cases apiKey with
    | nil => exact absurd rfl hk
    | cons c cs => rfl
  refine ⟨?_, ?_, ?_, ?_⟩
  · intro hx; simp [analyzeImageColor, hke, hx]
  · intro hx; simp [analyzeImageColor, hke, hx]
  · simp [analyzeImageColor, hke]
  · intro r; simp [analyzeImageColor]

/-- C10 witness: a valid (mixed-case) hex answer is returned trimmed,
and an invalid answer yields the default, at concrete inputs. -/
theorem analyzeImageColor_spec_witness :
    analyzeImageColor (str "k") (.ok (str " #Aa12Ff ")) =
      .ok (trimStr (str " #Aa12Ff ")) ∧
    analyzeImageColor (str "k") (.ok (str "not a color")) =
      .ok (str "#F3F4F6") := by
  refine ⟨?_, ?_⟩
  · exact (analyzeImageColor_spec (str "k") (str " #Aa12Ff ") (str "x")
      (by decide)).1 (by decide)
  · exact (analyzeImageColor_spec (str "k") (str "not a color") (str "x")
      (by decide)).2.1 (by decide)

/-- C5: when the critical path succeeds, every selected product's
mockup item ends in the state determined solely by that product's own
generation outcome — `Success` with its own payload on resolution,
`Failed` on rejection — independent of its siblings' outcomes, and the
per-item failures never reach the orchestrator's top-level error
channel, which ends the run clear. -/
theorem mockup_fanout_isolation (env : RunEnv) (s0 : AppState) (im c cu bu ru : Str)
    (hk : s0.geminiApiKey.isEmpty = false)
    (him : s0.uploadedImage = some im)
    (hsel : s0.selectedProducts.isEmpty = false)
    (ha : env.analyzeResult = .ok c) (hc : env.cloneResult = .ok cu)
    (hb : env.removeBgResult = .ok bu) (hr : env.resizeResult = .ok ru) :
    (handleGenerateClick env s0).mockups =
      s0.selectedProducts.map (finalItem env) ∧
    (handleGenerateClick env s0).error = none := by
  unfold handleGenerateClick handleGenerateRun
  rw [hk, him]
  simp only [Bool.false_eq_true, if_false, runInit, runBody, ha, hc, hb, hr, hsel]
  constructor
  · rw [(mockupFanout_fields env s0.selectedProducts _).1, foldl_map_swap,
      List.map_map]
    refine List.map_congr_left ?_
    intro id hid
    exact elemFold_of_mem env id s0.selectedProducts hid
  · exact (mockupFanout_fields env s0.selectedProducts _).2.2.2.2

/-- C5 witness: four products `A`, `B`, `C`, `D` where exactly `C`'s
call rejects — the end state has `A`, `B`, `D` as `Success` with their
own payloads and only `C` as `Failed`, with a clear error channel. -/
theorem mockup_fanout_isolation_witness :
    (handleGenerateClick envOneMockupFails fourProductState).mockups =
      [⟨str "A", str "P", .success, some (str "m-A")⟩,
       ⟨str "B", str "P", .success, some (str "m-B")⟩,
       ⟨str "C", str "P", .failed, none⟩,
       ⟨str "D", str "P", .success, some (str "m-D")⟩] ∧
    (handleGenerateClick envOneMockupFails fourProductState).error = none := by
  have h := mockup_fanout_isolation envOneMockupFails fourProductState
    (str "img") (str "#000000") (str "c") (str "b") (str "r")
    (by decide) (by decide) (by decide) rfl rfl rfl rfl
  exact ⟨h.1.trans (by decide), h.2⟩

/-- C3: for every base prompt ending in a recognized background clause
(case-insensitive, anchored at the end) and non-empty-after-trimming
instructions, the composed prompt is exactly the prompt with the
trailing clause excised, a sentence-terminating period added only when
the remaining text does not already end with one, the literal segment
`" Additional instructions: "`, the instructions, and the identical
excised clause re-appended; hence the result ends with the identical
clause, with the marker `"Additional instructions: "` and the
instructions immediately before it.  For every base prompt not ending
in a recognized clause, the instructions are appended at the very end
after `"\n\nAdditional instructions: "` without altering the existing
text. -/
theorem composeClonePrompt_spec (s instr body clause : Str) :
    (matchBgSuffix s = some (body, clause) → (trimStr instr).length > 0 →
      s = body ++ clause ∧
      composeClonePrompt s (some instr) =
        body ++ (if body.getLast? = some '.' then ([] : Str) else ['.'])
          ++ str " Additional instructions: " ++ instr ++ clause ∧
      clause <:+ composeClonePrompt s (some instr) ∧
      (str "Additional instructions: " ++ instr ++ clause) <:+
        composeClonePrompt s (some instr) ∧
      (lowerStr clause = blackClause ∨ lowerStr clause = whiteClause)) ∧
    (matchBgSuffix s = none → (trimStr instr).length > 0 →
      composeClonePrompt s (some instr) =
        s ++ str "\n\nAdditional instructions: " ++ instr) := by
  constructor
  · intro hm hi
    have hcond : (blackClause.isSuffixOf (lowerStr s)
        || whiteClause.isSuffixOf (lowerStr s)) = true := by
      by_contra h
      unfold matchBgSuffix at hm
      rw [if_neg (by simpa using h)] at hm
      exact Option.noConfusion hm
    have hm2 : some (s.take (s.length - blackClause.length),
        s.drop (s.length - blackClause.length)) = some (body, clause) := by
      unfold matchBgSuffix at hm
      rw [if_pos hcond] at hm
      exact hm
    have h2 := Option.some.inj hm2
    have hb : body = s.take (s.length - blackClause.length) :=
      (congrArg Prod.fst h2).symm
    have hc : clause = s.drop (s.length - blackClause.length) :=
      (congrArg Prod.snd h2).symm
    have hsplit : s = body ++ clause := by
      rw [hb, hc]; exact (List.take_append_drop _ s).symm
    have heq : composeClonePrompt s (some instr) =
        body ++ (if body.getLast? = some '.' then ([] : Str) else ['.'])
          ++ str " Additional instructions: " ++ instr ++ clause := by
      simp [composeClonePrompt, hm, hi]
    refine ⟨hsplit, heq, ?_, ?_, ?_⟩
    · rw [heq]
      exact ⟨body ++ (if body.getLast? = some '.' then ([] : Str) else ['.'])
        ++ str " Additional instructions: " ++ instr, by simp⟩
    · rw [heq]
      refine ⟨body ++ (if body.getLast? = some '.' then ([] : Str) else ['.'])
        ++ [' '], ?_⟩
      have hsp : str " Additional instructions: " =
          ' ' :: str "Additional instructions: " := rfl
      rw [hsp]
      simp
    · have hlen : (lowerStr s).length = s.length := List.length_map _ _
      rcases (Bool.or_eq_true _ _).mp hcond with hside | hside
      · left
        have hsfx : blackClause <:+ lowerStr s :=
          List.isSuffixOf_iff_suffix.mp hside
        have hdrop := List.suffix_iff_eq_drop.mp hsfx
        rw [hlen] at hdrop
        rw [hc]
        unfold lowerStr
        rw [List.map_drop]
        exact (hdrop ▸ rfl :
          (lowerStr s).drop (s.length - blackClause.length) = blackClause)
      · right
        have hsfx : whiteClause <:+ lowerStr s :=
          List.isSuffixOf_iff_suffix.mp hside
        have hdrop := List.suffix_iff_eq_drop.mp hsfx
        rw [hlen] at hdrop
        have hwb : whiteClause.length = blackClause.length := rfl
        rw [hwb] at hdrop
        rw [hc]
        unfold lowerStr
        rw [List.map_drop]
        exact (hdrop ▸ rfl :
          (lowerStr s).drop (s.length - blackClause.length) = whiteClause)
  · intro hm hi
    simp [composeClonePrompt, hm, hi]

/-- C3 witness: a concrete prompt ending in the black-background clause
with instructions `"x"` — the clause is excised, the period added, the
marker and instructions inserted, and the clause re-appended last. -/
theorem composeClonePrompt_spec_witness :
    composeClonePrompt (str "A star on a solid black background")
        (some (str "x")) =
      str "A star. Additional instructions: x on a solid black background" := by
  have h := (composeClonePrompt_spec (str "A star on a solid black background")
      (str "x") (str "A star") (str " on a solid black background")).1
      (by decide) (by decide)
  exact h.2.1.trans (by decide)

/-- The empty-content branch always fails. -/
theorem generateImageEmpty_error (resp : GenResponse) :
    ∃ e, generateImage.generateImageEmpty resp = .error e := by
  unfold generateImage.generateImageEmpty
  dsimp only
  split
  · exact ⟨_, rfl⟩
  · exact ⟨_, rfl⟩

/-- The no-image text fallback always fails. -/
theorem generateImageTextFallback_error (resp : GenResponse)
    (parts : List ContentPart) :
    ∃ e, generateImage.generateImageTextFallback resp parts = .error e := by
  unfold generateImage.generateImageTextFallback
  dsimp only
  split
  · split
    · exact ⟨_, rfl⟩
    · exact ⟨_, rfl⟩
  · exact ⟨_, rfl⟩

/-- With a truthy block reason the classifier fails with
`BlockedContent`, whatever else the response carries. -/
theorem generateImage_blocked_of (resp : GenResponse)
    (h : hasBlockReason resp = true) :
    ∃ m, generateImage resp = .error (.blockedContent m) := by
  unfold hasBlockReason at h
  unfold generateImage
  rcases hbr : blockReasonOf resp with _ | reason
  · rw [hbr] at h; exact absurd h (by simp [optTruthy])
  · rw [hbr] at h
    dsimp only
    rw [if_pos h]
    exact ⟨_, rfl⟩

/-- Without a truthy block reason the classifier proceeds to the
post-block checks. -/
theorem generateImage_afterBlock_of (resp : GenResponse)
    (h : hasBlockReason resp = false) :
    generateImage resp = generateImage.generateImageAfterBlock resp := by
  unfold hasBlockReason at h
  unfold generateImage
  rcases hbr : blockReasonOf resp with _ | reason
  · rfl
  · rw [hbr] at h
    dsimp only
    rw [if_neg (by simp [h])]

/-- C4: the classifier's checks short-circuit in source order — a
truthy block reason always yields `BlockedContent` (even when an image
part is present, so the call never returns the image), absent a block
reason a HIGH/MEDIUM safety rating yields `FilteredContent`, and any
successful result implies there was no block reason, no harmful
rating, a non-empty part list, and that the payload comes from the
first part carrying image data. -/
theorem generateImage_classification (resp : GenResponse) :
    (hasBlockReason resp = true → classOf (generateImage resp) = .blocked) ∧
    (hasBlockReason resp = true → hasImagePart resp = true →
      classOf (generateImage resp) ≠ .success) ∧
    (hasBlockReason resp = false → ∀ rating, harmfulRatingOf resp = some rating →
      classOf (generateImage resp) = .filtered) ∧
    (∀ url, generateImage resp = .ok url →
      hasBlockReason resp = false ∧ harmfulRatingOf resp = none ∧
      (∃ parts, partsOf resp = some parts ∧ parts.isEmpty = false) ∧
      ∃ data, firstImageData resp = some data ∧
        url = str "data:image/png;base64," ++ data) := by
  refine ⟨?_, ?_, ?_, ?_⟩
  · intro h
    obtain ⟨m, hm⟩ := generateImage_blocked_of resp h
    rw [hm]; rfl
  · intro h _
    obtain ⟨m, hm⟩ := generateImage_blocked_of resp h
    rw [hm]; simp [classOf]
  · intro h rating hr
    rw [generateImage_afterBlock_of resp h]
    unfold generateImage.generateImageAfterBlock
    rw [hr]
    rfl
  · intro url hok
    have hbf : hasBlockReason resp = false := by
      cases hB : hasBlockReason resp
      · rfl
      · obtain ⟨m, hm⟩ := generateImage_blocked_of resp hB
        rw [hm] at hok
        exact absurd hok (by simp)
    rw [generateImage_afterBlock_of resp hbf] at hok
    unfold generateImage.generateImageAfterBlock at hok
    rcases hharm : harmfulRatingOf resp with _ | rating
    case some =>
      rw [hharm] at hok
      dsimp only at hok
      simp at hok
    case none =>
    rw [hharm] at hok
    dsimp only at hok
    rcases hparts : partsOf resp with _ | parts
    · rw [hparts] at hok
      dsimp only at hok
      obtain ⟨e, he⟩ := generateImageEmpty_error resp
      rw [he] at hok
      simp at hok
    · rw [hparts] at hok
      dsimp only at hok
      by_cases hemp : parts.isEmpty
      · rw [if_pos hemp] at hok
        obtain ⟨e, he⟩ := generateImageEmpty_error resp
        rw [he] at hok
        simp at hok
      · rw [if_neg hemp] at hok
        rcases hfind : parts.find? (fun part => part.inlineData.isSome) with _ | imagePart
        · rw [hfind] at hok
          dsimp only at hok
          obtain ⟨e, he⟩ := generateImageTextFallback_error resp parts
          rw [he] at hok
          simp at hok
        · rw [hfind] at hok
          dsimp only at hok
          rcases hdata : imagePart.inlineData with _ | data
          · rw [hdata] at hok
            dsimp only at hok
            obtain ⟨e, he⟩ := generateImageTextFallback_error resp parts
            rw [he] at hok
            simp at hok
          · rw [hdata] at hok
            dsimp only at hok
            have hurl : url = str "data:image/png;base64," ++ data :=
              (Except.ok.inj hok).symm
            refine ⟨hbf, rfl, ⟨parts, rfl, by simpa using hemp⟩,
              data, ?_, hurl⟩
            unfold firstImageData
            rw [hparts]
            dsimp only [Option.getD]
            rw [hfind]
            exact hdata

/-- C4 witness: a concrete response carrying both a block reason and an
image part is classified `BlockedContent`, not success. -/
theorem generateImage_classification_witness :
    classOf (generateImage respBlockedWithImage) = .blocked ∧
    classOf (generateImage respBlockedWithImage) ≠ .success := by
  have h := generateImage_classification respBlockedWithImage
  exact ⟨h.1 (by decide), h.2.1 (by decide) (by decide)⟩

/-- C6: for every decodable source image (positive pixel dimensions)
`resizeDesign` yields exactly a 4500×5400 canvas with the highest
smoothing quality, drawing the source scaled by the uniform factor
`min(4500/w, 5400/h)` — so the aspect ratio is preserved exactly
(`newW * h = newH * w`), the image fits inside the target, the fitting
axis is filled completely (`newW = 4500` or `newH = 5400`), the
leftover margins on opposing sides are equal (`2·offset + scaled =
target` with non-negative offsets), and every canvas point outside the
draw rectangle is left unpainted after the full clear; an undecodable
source fails with the decode error. -/
theorem resizeDesign_spec (w h : Nat) (hw : 0 < w) (hh : 0 < h) :
    (∀ b, resizeDesign none b = .error (str "Failed to load image for resizing.")) ∧
    ∃ xOff yOff newW newH : ℚ,
      resizeDesign (some (w, h)) true = .ok ⟨4500, 5400, .high,
        [.clearRect 0 0 4500 5400, .drawImage xOff yOff newW newH]⟩ ∧
      newW = (w : ℚ) * min (4500 / (w : ℚ)) (5400 / (h : ℚ)) ∧
      newH = (h : ℚ) * min (4500 / (w : ℚ)) (5400 / (h : ℚ)) ∧
      newW * h = newH * w ∧
      0 ≤ xOff ∧ 0 ≤ yOff ∧
      2 * xOff + newW = 4500 ∧ 2 * yOff + newH = 5400 ∧
      (newW = 4500 ∨ newH = 5400) ∧ newW ≤ 4500 ∧ newH ≤ 5400 ∧
      ∀ p q : ℚ, inRect xOff yOff newW newH p q = false →
        paintedAfter [.clearRect 0 0 4500 5400,
          .drawImage xOff yOff newW newH] p q = false := by
  have hw0 : (w : ℚ) ≠ 0 := by positivity
  have hh0 : (h : ℚ) ≠ 0 := by positivity
  have hwQ : (0 : ℚ) < w := by positivity
  have hhQ : (0 : ℚ) < h := by positivity
  set r : ℚ := min (4500 / (w : ℚ)) (5400 / (h : ℚ)) with hr
  have hWle : (w : ℚ) * r ≤ 4500 := by
    calc (w : ℚ) * r ≤ (w : ℚ) * (4500 / (w : ℚ)) :=
            mul_le_mul_of_nonneg_left (min_le_left _ _) (le_of_lt hwQ)
      _ = 4500 := mul_div_cancel₀ _ hw0
  have hHle : (h : ℚ) * r ≤ 5400 := by
    calc (h : ℚ) * r ≤ (h : ℚ) * (5400 / (h : ℚ)) :=
            mul_le_mul_of_nonneg_left (min_le_right _ _) (le_of_lt hhQ)
      _ = 5400 := mul_div_cancel₀ _ hh0
  refine ⟨fun b => rfl,
    (4500 - (w : ℚ) * r) / 2, (5400 - (h : ℚ) * r) / 2,
    (w : ℚ) * r, (h : ℚ) * r, ?_, rfl, rfl, by ring, ?_, ?_, by ring, by ring,
    ?_, hWle, hHle, ?_⟩
  · simp [resizeDesign, hr]
  · have := hWle
    linarith [div_nonneg (by linarith : (0:ℚ) ≤ 4500 - (w : ℚ) * r)
      (by norm_num : (0:ℚ) ≤ 2)]
  · have := hHle
    linarith [div_nonneg (by linarith : (0:ℚ) ≤ 5400 - (h : ℚ) * r)
      (by norm_num : (0:ℚ) ≤ 2)]
  · rcases min_cases (4500 / (w : ℚ)) (5400 / (h : ℚ)) with ⟨hmin, _⟩ | ⟨hmin, _⟩
    · left
      rw [hr, hmin, mul_div_cancel₀ _ hw0]
    · right
      rw [hr, hmin, mul_div_cancel₀ _ hh0]
  · intro p q hpq
    simp only [paintedAfter, List.foldl]
    rw [hpq]
    simp

/-- C6 witness: a 3×4 source decodes and resizes successfully, and an
undecodable source fails with the decode error. -/
theorem resizeDesign_spec_witness :
    (resizeDesign (some (3, 4)) true).isOk = true ∧
    resizeDesign none true = .error (str "Failed to load image for resizing.") := by
  obtain ⟨hnone, xOff, yOff, newW, newH, heq, -⟩ :=
    resizeDesign_spec 3 4 (by decide) (by decide)
  constructor
  · rw [heq]
    rfl
  · exact hnone true

/-- The payload invariant split into its per-field conjuncts. -/
theorem stateInv_parts (s : AppState) :
    stateInv s = true ↔
      (assetInv s.clonedDesign = true ∧ assetInv s.removedBgDesign = true ∧
       assetInv s.resizedDesign = true ∧ ∀ m ∈ s.mockups, itemInv m = true) := by
  simp [stateInv, List.all_eq_true, and_assoc]

/-- The catch block's pending-to-failed mockup update preserves the
payload invariant (a pending item has no payload to begin with). -/
theorem itemInv_failPending (m : Mockup) (h : itemInv m = true) :
    itemInv (if m.status = .pending then { m with status := .failed } else m) = true := by
  by_cases hp : m.status = .pending
  · rw [if_pos hp]
    cases hu : m.imageUrl
    · simp [itemInv]
    · rw [itemInv, hp, hu] at h
      simp at h
  · rw [if_neg hp]
    exact h

/-- A freshly initialized mockup item satisfies the payload invariant. -/
theorem itemInv_initItem (env : RunEnv) (id : Str) :
    itemInv (initItem env id) = true := rfl

/-- Every state the catch block passes through satisfies the payload
invariant, whatever the pre-run snapshot was. -/
theorem runCatch_inv (sel : List Str) (s0 sCur : AppState) (e : Str)
    (h : stateInv sCur = true) :
    ∀ t ∈ (runCatch sel s0 sCur e).1, stateInv t = true := by
  intro t ht
  unfold runCatch at ht
  dsimp only at ht
  simp only [List.mem_cons, List.not_mem_nil, or_false] at ht
  rcases ht with rfl | rfl | rfl | rfl | rfl <;>
    (repeat' split) <;>
    (rw [stateInv_parts] at h ⊢
     obtain ⟨hA, hB, hC, hM⟩ := h
     refine ⟨?_, ?_, ?_, ?_⟩ <;>
       first
         | rfl
         | exact hA
         | exact hB
         | exact hC
         | exact hM
         | (intro m hm
            rcases List.mem_map.mp hm with ⟨m0, hm0, rfl⟩
            exact itemInv_failPending m0 (hM m0 hm0)))

/-- Every state of the fan-out trace satisfies the payload invariant. -/
theorem fanoutTrace_stateInv (env : RunEnv) (sel : List Str) (s : AppState)
    (hs : stateInv s = true) (hg : ∀ m ∈ s.mockups, goodItem env m) :
    ∀ t ∈ mockupFanoutTrace env s sel, stateInv t = true := by
  intro t ht
  obtain ⟨h1, h2, h3, _, h5⟩ := mockupFanoutTrace_spec env sel s hg t ht
  rw [stateInv_parts] at hs ⊢
  obtain ⟨hA, hB, hC, _⟩ := hs
  refine ⟨?_, ?_, ?_, fun m hm => itemInv_of_goodItem env m (h5 m hm)⟩
  · rw [h1]; exact hA
  · rw [h2]; exact hB
  · rw [h3]; exact hC

/-- The element-level fold keeps an item within its two reachable
shapes. -/
theorem goodItem_elemFold (env : RunEnv) (sel : List Str) :
    ∀ m : Mockup, goodItem env m →
      goodItem env (sel.foldl (fun x p => gElem env p x) m) := by
  induction sel with
  | nil => intro m h; exact h
  | cons p rest ih =>
    intro m h
    exact ih (gElem env p m) (goodItem_gElem env p m h)

/-- All initialization states satisfy the payload invariant, the
post-initialization state does, and its mockup items are all in their
initial shape. -/
theorem runInit_inv (env : RunEnv) (s0 : AppState) (h0 : stateInv s0 = true) :
    (∀ t ∈ (runInit env s0).1, stateInv t = true) ∧
    stateInv (runInit env s0).2 = true ∧
    (∀ m ∈ ((runInit env s0).2).mockups, goodItem env m) := by
  rw [stateInv_parts] at h0
  obtain ⟨hA, hB, hC, hM⟩ := h0
  have hlast : stateInv (runInit env s0).2 = true := by
    rw [stateInv_parts]
    refine ⟨rfl, rfl, rfl, ?_⟩
    intro m hm
    unfold runInit at hm
    dsimp only at hm
    split at hm
    · cases hm
    · rcases List.mem_map.mp hm with ⟨id, _, rfl⟩
      exact itemInv_initItem env id
  refine ⟨?_, hlast, ?_⟩
  · intro t ht
    unfold runInit at ht
    dsimp only at ht
    simp only [List.mem_cons, List.not_mem_nil, or_false] at ht
    rcases ht with rfl | rfl | rfl | rfl | rfl | rfl <;>
      (rw [stateInv_parts]
       refine ⟨?_, ?_, ?_, ?_⟩ <;>
         first
           | rfl
           | exact hA
           | exact hB
           | exact hC
           | exact hM
           | (intro m hm
              dsimp only at hm
              split at hm
              · cases hm
              · rcases List.mem_map.mp hm with ⟨id, _, rfl⟩
                exact itemInv_initItem env id))
  · intro m hm
    unfold runInit at hm
    dsimp only at hm
    split at hm
    · cases hm
    · rcases List.mem_map.mp hm with ⟨id, _, rfl⟩
      left
      rfl

/-- Every state of the try block's trace, and the state at which the
block exits, satisfies the payload invariant. -/
theorem runBody_inv (env : RunEnv) (sel : List Str) (s1 : AppState)
    (hs : stateInv s1 = true) (hg : ∀ m ∈ s1.mockups, goodItem env m) :
    (∀ t ∈ (runBody env sel s1).1, stateInv t = true) ∧
    stateInv (runBody env sel s1).2.1 = true := by
  have hs' := hs
  rw [stateInv_parts] at hs'
  obtain ⟨hA, hB, hC, hM⟩ := hs'
  rcases ha : env.analyzeResult with e | c
  · refine ⟨?_, ?_⟩
    · intro t ht; simp [runBody, ha] at ht
    · simp only [runBody, ha]; exact hs
  rcases hc : env.cloneResult with e | cu
  · refine ⟨?_, ?_⟩
    · intro t ht; simp [runBody, ha, hc] at ht
    · simp only [runBody, ha, hc]; exact hs
  rcases hb : env.removeBgResult with e | bu
  · refine ⟨?_, ?_⟩
    · intro t ht
      simp only [runBody, ha, hc, hb, List.mem_cons, List.not_mem_nil,
        or_false] at ht
      rcases ht with rfl | rfl <;>
        (rw [stateInv_parts]
         exact ⟨rfl, by first | rfl | exact hB, hC, hM⟩)
    · simp only [runBody, ha, hc, hb]
      rw [stateInv_parts]
      exact ⟨rfl, rfl, hC, hM⟩
  rcases hr : env.resizeResult with e | ru
  · refine ⟨?_, ?_⟩
    · intro t ht
      simp only [runBody, ha, hc, hb, hr, List.mem_cons, List.not_mem_nil,
        or_false] at ht
      rcases ht with rfl | rfl | rfl | rfl <;>
        (rw [stateInv_parts]
         refine ⟨?_, ?_, ?_, ?_⟩ <;>
           first | rfl | exact hA | exact hB | exact hC | exact hM)
    · simp only [runBody, ha, hc, hb, hr]
      rw [stateInv_parts]
      exact ⟨rfl, rfl, rfl, hM⟩
  by_cases hsel : sel.isEmpty
  · refine ⟨?_, ?_⟩
    · intro t ht
      simp only [runBody, ha, hc, hb, hr, hsel, if_true, List.mem_cons,
        List.not_mem_nil, or_false] at ht
      rcases ht with rfl | rfl | rfl | rfl | rfl <;>
        (rw [stateInv_parts]
         refine ⟨?_, ?_, ?_, ?_⟩ <;>
           first | rfl | exact hA | exact hB | exact hC | exact hM)
    · simp only [runBody, ha, hc, hb, hr, hsel, if_true]
      rw [stateInv_parts]
      exact ⟨rfl, rfl, rfl, hM⟩
  · have hsel' : sel.isEmpty = false := by
      cases hE : sel.isEmpty
      · rfl
      · exact absurd hE hsel
    constructor
    · intro t ht
      simp only [runBody, ha, hc, hb, hr, hsel', Bool.false_eq_true, if_false,
        List.mem_append, List.mem_cons, List.not_mem_nil, or_false] at ht
      rcases ht with hts | htr
      · rcases hts with rfl | rfl | rfl | rfl | rfl <;>
          (rw [stateInv_parts]
           refine ⟨?_, ?_, ?_, ?_⟩ <;>
             first | rfl | exact hA | exact hB | exact hC | exact hM)
      · refine fanoutTrace_stateInv env sel _ ?_ ?_ t htr
        · rw [stateInv_parts]
          exact ⟨rfl, rfl, rfl, hM⟩
        · exact hg
    · simp only [runBody, ha, hc, hb, hr, hsel', Bool.false_eq_true, if_false]
      obtain ⟨hmk, h1, h2, h3, _⟩ := mockupFanout_fields env sel _
      rw [stateInv_parts]
      refine ⟨?_, ?_, ?_, ?_⟩
      · rw [h1]
        rfl
      · rw [h2]
        rfl
      · rw [h3]
        rfl
      · intro m hm
        rw [hmk, foldl_map_swap] at hm
        rcases List.mem_map.mp hm with ⟨m0, hm0, rfl⟩
        exact itemInv_of_goodItem env _
          (goodItem_elemFold env sel m0 (hg m0 hm0))

/-- C9: at every point of a run of the orchestrator — and after
`processImageFile` — every staged asset and every mockup item carries
an `imageUrl` if and only if its status is `Success`, provided the
store satisfied the invariant when the run began. -/
theorem pipeline_payload_invariant (env : RunEnv) (s0 : AppState)
    (h0 : stateInv s0 = true) :
    (∀ t ∈ runStates env s0, stateInv t = true) ∧
    (∀ (isImg : Bool) (d : Except Str Str),
      stateInv (processImageFile isImg d s0) = true) := by
  constructor
  · intro t ht
    unfold runStates handleGenerateRun at ht
    by_cases hk : s0.geminiApiKey.isEmpty
    · rw [if_pos hk] at ht
      simp only [List.mem_singleton] at ht
      subst ht
      exact h0
    · rw [if_neg hk] at ht
      rcases him : s0.uploadedImage with _ | img
      · rw [him] at ht
        simp only [List.mem_singleton] at ht
        subst ht
        exact h0
      · rw [him] at ht
        dsimp only at ht
        obtain ⟨hinit, hlast, hgood⟩ := runInit_inv env s0 h0
        obtain ⟨hbody, hexit⟩ := runBody_inv env s0.selectedProducts
          (runInit env s0).2 hlast hgood
        rcases hri : runInit env s0 with ⟨initTr, s1⟩
        rw [hri] at ht hinit hlast hgood hbody hexit
        dsimp only at ht hinit hlast hgood hbody hexit
        rcases hrb : runBody env s0.selectedProducts s1 with ⟨bodyTr, sExit, err⟩
        rw [hrb] at ht hbody hexit
        dsimp only at ht hbody hexit
        cases err with
        | none =>
          dsimp only at ht
          rcases List.mem_append.mp ht with hts | hts
          · exact hinit t hts
          · exact hbody t hts
        | some e =>
          dsimp only at ht
          rcases hrc : runCatch s0.selectedProducts s0 sExit e with ⟨catchTr, sEnd⟩
          rw [hrc] at ht
          dsimp only at ht
          have hcatch := runCatch_inv s0.selectedProducts s0 sExit e hexit
          rw [hrc] at hcatch
          dsimp only at hcatch
          rcases List.mem_append.mp ht with hts | hts
          · rcases List.mem_append.mp hts with hts' | hts'
            · exact hinit t hts'
            · exact hbody t hts'
          · exact hcatch t hts
  · intro isImg d
    cases isImg
    · exact h0
    · cases d
      · exact h0
      · rfl

/-- C9 witness: the invariant holds at the final state of a concrete
failing run started from a fresh store. -/
theorem pipeline_payload_invariant_witness :
    stateInv (handleGenerateClick envResizeFails freshState) = true := by
  have h := (pipeline_payload_invariant envResizeFails freshState (by decide)).1
  exact h _ (by decide)
